import Mathlib

/-!
Shallow embedding of the crm-mailbox-service calendar core
(`src/calendar/controller/calendar.controller.ts`, the Google adapter
`GoogleCalendarService` and the Microsoft adapter `MicrosoftService`)
together with theorems checking the natural-language specification
against this embedding.

Conventions:
* ISO-8601 timestamps are modelled as `Int` milliseconds since epoch
  (`new Date(s).getTime()`); `Date` arithmetic becomes `Int` arithmetic.
* JavaScript `undefined`/absent optional fields become `Option`;
  JS string truthiness (`if (s)`) becomes `jsTruthy`.
* Fallible code returns `Except CalError _`; thrown
  `UnauthorizedException`/`BadRequestException` become the two
  `CalError` constructors.
* Outbound provider traffic is recorded as a list of transport-call
  labels; persistence is recorded explicitly (saved-record counts or
  the updated store).
-/

namespace Crm

/-- Timestamp in milliseconds since epoch (model of a JS `Date` /
ISO-8601 string at the boundary). -/
abbrev Time := Int

/-- Error taxonomy of the service: `UnauthorizedException` and
`BadRequestException` with their human-readable messages. -/
inductive CalError where
  | unauthorized (msg : String)
  | badRequest (msg : String)
deriving Repr, DecidableEq

/-- JS truthiness of an optional string header/field: `undefined` and
`""` are falsy. -/
def jsTruthy : Option String → Bool
  | none => false
  | some v => v ≠ ""

/-- If `pat` is a leading segment of `s`, return the remainder. -/
def dropMatch : List Char → List Char → Option (List Char)
  | [], s => some s
  | _ :: _, [] => none
  | p :: ps, c :: cs => if p = c then dropMatch ps cs else none

/-- Remove the first occurrence of `pat` from `s`
(model of JS `String.replace(pat, '')` with a string pattern, which
replaces only the first occurrence). -/
def replaceFirstAux (pat : List Char) : List Char → List Char
  | [] => []
  | c :: cs =>
    match dropMatch pat (c :: cs) with
    | some rest => rest
    | none => c :: replaceFirstAux pat cs

/-- `replaceFirst s pat` is JS `s.replace(pat, '')`. -/
def replaceFirst (s pat : String) : String :=
  ⟨replaceFirstAux pat.data s.data⟩

/-- Model of JS `String.toLowerCase` (character-wise lowering). -/
def lowerStr (s : String) : String :=
  ⟨s.data.map Char.toLower⟩

/-- `CalendarProvider` enum of the controller. -/
inductive CalendarProvider where
  | google
  | microsoft
deriving Repr, DecidableEq

/-- `CalenderSyncController.validateHeaders`: checks presence of both
headers, case-insensitively matches the provider tag against the
`CalendarProvider` enum values, then strips the first `"Bearer "`
occurrence from the authorization value and requires the remainder to
be non-empty. -/
def validateHeaders (authHeader provider : Option String) :
    Except CalError (String × CalendarProvider) :=
  if ¬ jsTruthy authHeader then
    .error (.unauthorized "Authorization header is required")
  else if ¬ jsTruthy provider then
    .error (.badRequest "X-Calendar-Provider header is required")
  else
    let normalizedProvider := lowerStr (provider.getD "")
    if normalizedProvider ≠ "google" ∧ normalizedProvider ≠ "microsoft" then
      .error (.badRequest
        "Invalid calendar provider. Must be one of: google, microsoft")
    else
      let accessToken := replaceFirst (authHeader.getD "") "Bearer "
      if accessToken = "" then
        .error (.unauthorized
          "Invalid authorization header format. Must be Bearer token")
      else
        .ok (accessToken,
          if normalizedProvider = "google" then .google else .microsoft)

/-! ### Data model: stored records and the unified feed -/

/-- `MeetingLocationType` (`src/calendar/types/meeting-location.type.ts`).
The file itself is not in the tree; its members are taken from the
spec's location kinds (in-person / provider-native video / teams /
other).  The code only matches on `IN_PERSON`, `GOOGLE_MEET` and
`TEAMS`, treating everything else uniformly. -/
inductive MeetingLocationType where
  | inPerson
  | googleMeet
  | teams
  | other
deriving Repr, DecidableEq

/-- `MeetingType` enum of logged meetings. -/
inductive MeetingType where
  | virtual
  | inPerson
  | phone
deriving Repr, DecidableEq

/-- Attendee / participant shape carried through the feed
(`email`, optional display name, optional response status, optional
external flag for logged-meeting participants). -/
structure Person where
  email : String
  name : Option String
  status : Option String
  isExternal : Option Bool
deriving Repr, DecidableEq

/-- Mongo `CalendarEvent` document (local mirror of one provider
event). -/
structure CalendarEventRec where
  externalId : String
  provider : String
  userId : Option String
  leadId : Option String
  title : String
  description : Option String
  startTime : Time
  endTime : Time
  timeZone : Option String
  isAllDay : Option Bool
  locationType : Option MeetingLocationType
  locationDetails : Option String
  attendees : List Person
  organizer : Option String
  organizerName : Option String
  meetingLink : Option String
  isOnlineMeeting : Option Bool
  onlineMeetingProvider : Option String
  outcome : Option String
  isActive : Bool
deriving Repr, DecidableEq

/-- Mongo `LoggedMeeting` document (manually logged meeting). -/
structure LoggedMeetingRec where
  id : String
  title : String
  meetingType : MeetingType
  virtualMeetingProvider : Option String
  meetingDateTime : Time
  duration : Option Int
  summary : Option String
  outcome : Option String
  participants : List Person
  leadId : Option String
  loggedBy : Option String
  organizationId : String
  activityId : Option String
  taskId : Option String
  attachment : Option String
  location : Option String
  isActive : Bool
deriving Repr, DecidableEq

/-- Google user profile lookup result (`getUserProfile`). -/
structure UserProfile where
  name : Option String
  email : Option String
deriving Repr, DecidableEq

/-- One item of the unified local feed returned by
`getLocalEvents`. -/
structure FeedItem where
  id : String
  title : String
  startTime : Time
  endTime : Time
  meetingLink : Option String
  attendees : List Person
  location : Option String
  organizer : Option String
  organizerName : Option String
  description : Option String
  isOnlineMeeting : Option Bool
  onlineMeetingProvider : Option String
  leadId : Option String
  outcome : Option String
  timeZone : Option String
  source : String
  isLoggedMeeting : Bool
  loggedAt : Option Time
  activityId : Option String
  taskId : Option String
  attachment : Option String
  duration : Option Int
deriving Repr, DecidableEq

/-- Mapping of a mirrored calendar event to a feed item
(`getLocalEvents`, "Map calendar events" block), including the
organizer-name fallback chain: stored name, then the Google profile
name when the organizer email matches, then the organizer email, then
the literal `"user"`. -/
def mapCalendarEvent (userProfile : UserProfile) (e : CalendarEventRec) :
    FeedItem :=
  let n1 :=
    if ¬ jsTruthy e.organizerName ∧ jsTruthy userProfile.name ∧
        e.organizer = userProfile.email then
      userProfile.name
    else e.organizerName
  let organizerName :=
    if ¬ jsTruthy n1 then
      (if jsTruthy e.organizer then e.organizer else some "user")
    else n1
  { id := e.externalId
    title := e.title
    startTime := e.startTime
    endTime := e.endTime
    meetingLink := e.meetingLink
    attendees := e.attendees
    location := e.locationDetails
    organizer := e.organizer
    organizerName := organizerName
    description := e.description
    isOnlineMeeting := e.isOnlineMeeting
    onlineMeetingProvider := e.onlineMeetingProvider
    leadId := e.leadId
    outcome := e.outcome
    timeZone := e.timeZone
    source := "calendar_event"
    isLoggedMeeting := false
    loggedAt := none
    activityId := none
    taskId := none
    attachment := none
    duration := none }

/-- Mapping of a logged meeting to a feed item (`getLocalEvents`,
"Map logged meetings" block): synthetic equal start/end from
`meetingDateTime`, organizer identity from `loggedBy`, `loggedAt`
stamped with the current time. -/
def mapLoggedMeeting (now : Time) (m : LoggedMeetingRec) : FeedItem :=
  { id := m.id
    title := m.title
    startTime := m.meetingDateTime
    endTime := m.meetingDateTime
    meetingLink := none
    attendees := m.participants
    location := m.location
    organizer := m.loggedBy
    organizerName := m.loggedBy
    description := m.summary
    isOnlineMeeting := some (m.meetingType = .virtual)
    onlineMeetingProvider := m.virtualMeetingProvider
    leadId := m.leadId
    outcome := m.outcome
    timeZone := none
    source := "logged_meeting"
    isLoggedMeeting := true
    loggedAt := some now
    activityId := m.activityId
    taskId := m.taskId
    attachment := m.attachment
    duration := m.duration }

/-- Comparator of the final feed sort: `a` may precede `b` when
`b.startTime ≤ a.startTime` (the JS comparator
`(a, b) => Date(b.startTime) - Date(a.startTime)` sorts descending
by start time). -/
def feedGE (a b : FeedItem) : Prop := b.startTime ≤ a.startTime

instance : DecidableRel feedGE := fun a b =>
  inferInstanceAs (Decidable (b.startTime ≤ a.startTime))

instance : IsTotal FeedItem feedGE :=
  ⟨fun a b => le_total b.startTime a.startTime⟩

instance : IsTrans FeedItem feedGE :=
  ⟨fun _ _ _ hab hbc => le_trans hbc hab⟩

/-- The final feed ordering: a stable sort descending by start time
(JS `Array.prototype.sort` is stable; a stable sort with this
comparator is extensionally insertion sort with `feedGE`). -/
def sortByStartDesc (l : List FeedItem) : List FeedItem :=
  l.insertionSort feedGE

/-- `CalenderSyncController.getLocalEvents`, from the two query
results onward: map both collections (calendar events first, logged
meetings second, each in query order), concatenate, and stable-sort
descending by start time. -/
def getLocalEvents (calendarEvents : List CalendarEventRec)
    (loggedMeetings : List LoggedMeetingRec)
    (userProfile : UserProfile) (now : Time) : List FeedItem :=
  sortByStartDesc
    (calendarEvents.map (mapCalendarEvent userProfile) ++
      loggedMeetings.map (mapLoggedMeeting now))

/-! ### Time validation (both adapters) -/

/-- Message of an error (JS `error.message`). -/
def CalError.message : CalError → String
  | .unauthorized m => m
  | .badRequest m => m

/-- date-fns `differenceInMinutes(later, earlier)`: whole minutes,
truncated.  All call sites use it with a positive difference, where
every integer-division convention coincides with truncation. -/
def differenceInMinutes (laterT earlierT : Time) : Int :=
  (laterT - earlierT) / 60000

/-- `GoogleCalendarService.validateTimeLogic`: start strictly before
end, duration at most 1440 whole minutes.  No clock involved. -/
def googleValidateTimeLogic (startTime endTime : Time) :
    Except CalError Unit :=
  if startTime ≥ endTime then
    .error (.badRequest "Start time must be before end time")
  else if differenceInMinutes endTime startTime > 1440 then
    .error (.badRequest "Event duration cannot exceed 24 hours")
  else .ok ()

/-- `MicrosoftService.validateTimeLogic`: additionally rejects a start
earlier than the current clock (`now`); the ISO-format/NaN check is
outside the integer time model (all modelled inputs parse). -/
def msValidateTimeLogic (now startTime endTime : Time) :
    Except CalError Unit :=
  if startTime < now then
    .error (.badRequest "Start time cannot be in the past")
  else if endTime ≤ startTime then
    .error (.badRequest "End time must be after start time")
  else if differenceInMinutes endTime startTime > 24 * 60 then
    .error (.badRequest "Event duration cannot exceed 24 hours")
  else .ok ()

/-! ### Create event -/

/-- `responseRequired` of an attendee DTO: a boolean or the strings
`REQUIRED` / `OPTIONAL`. -/
inductive ResponseRequired where
  | boolVal (b : Bool)
  | requiredStr
  | optionalStr
deriving Repr, DecidableEq

/-- `attendee.responseRequired === true || === 'REQUIRED'`. -/
def respAccepted : Option ResponseRequired → Bool
  | some (.boolVal true) => true
  | some .requiredStr => true
  | _ => false

/-- Attendee of a create/update request. -/
structure AttendeeDto where
  email : String
  name : Option String
  responseRequired : Option ResponseRequired
deriving Repr, DecidableEq

/-- `CreateEventDto`. -/
structure CreateEventDto where
  title : String
  description : Option String
  startTime : Time
  endTime : Time
  timeZone : Option String
  attendees : List AttendeeDto
  locationType : MeetingLocationType
  locationDetails : Option String
  isAllDay : Option Bool
  organizer : Option String
  leadId : Option String
  outcome : Option String
deriving Repr, DecidableEq

/-- JS `a || dflt` on an optional string. -/
def jsOr (a : Option String) (dflt : String) : String :=
  if jsTruthy a then a.getD "" else dflt

/-- JS `a || dflt` on a plain string. -/
def strOr (a dflt : String) : String :=
  if a = "" then dflt else a

/-- JS `email.split('@')[0]`. -/
def emailLocalPart (s : String) : String :=
  ⟨s.data.takeWhile (fun c => c ≠ '@')⟩

/-- A provider `{dateTime, timeZone}` pair. -/
structure TimeSlot where
  dateTime : Time
  timeZone : String
deriving Repr, DecidableEq

/-- Attendee entry of a Microsoft Graph payload. -/
structure MsAttendeePayload where
  address : String
  name : String
  type : String
deriving Repr, DecidableEq

/-- Microsoft Graph event payload assembled by
`MicrosoftService.createEvent` (`graphEvent`). -/
structure MsGraphEventPayload where
  subject : String
  bodyContent : String
  start : TimeSlot
  «end» : TimeSlot
  attendees : List MsAttendeePayload
  isAllDay : Bool
  organizer : Option String
  location : Option String
  isOnlineMeeting : Option Bool
  onlineMeetingProvider : Option String
deriving Repr, DecidableEq

/-- `MicrosoftService.createEvent`, payload construction: base graph
event plus the location-kind branch — `IN_PERSON` sets a display-name
location; `TEAMS` and every other kind mark the event online with
provider `teamsForBusiness`. -/
def msCreateGraphPayload (d : CreateEventDto) : MsGraphEventPayload :=
  let base : MsGraphEventPayload :=
    { subject := d.title
      bodyContent := jsOr d.description ""
      start := ⟨d.startTime, jsOr d.timeZone "UTC"⟩
      «end» := ⟨d.endTime, jsOr d.timeZone "UTC"⟩
      attendees := d.attendees.map (fun a =>
        { address := a.email
          name := jsOr a.name (emailLocalPart a.email)
          type :=
            if respAccepted a.responseRequired then "required"
            else "optional" })
      isAllDay := d.isAllDay.getD false
      organizer := d.organizer
      location := none
      isOnlineMeeting := none
      onlineMeetingProvider := none }
  match d.locationType with
  | .inPerson =>
    { base with location := some (jsOr d.locationDetails "In Person Meeting") }
  | .teams =>
    { base with
        isOnlineMeeting := some true
        onlineMeetingProvider := some "teamsForBusiness" }
  | _ =>
    { base with
        isOnlineMeeting := some true
        onlineMeetingProvider := some "teamsForBusiness" }

/-- Observable outcome of a create-event call: the result, the
outbound provider transport calls in order, and the number of mirror
records persisted. -/
structure CreateOutcome where
  result : Except CalError Unit
  calls : List String
  saves : Nat
deriving Repr

/-- `GoogleCalendarService.createEvent`: token presence check, then
time validation, both before any outbound call; on success one create
call (plus the best-effort profile lookup) and one mirror save.
Thrown validation `HttpException`s are re-raised unchanged by the
outer catch. -/
def googleCreateEvent (accessToken : String) (d : CreateEventDto) :
    CreateOutcome :=
  if accessToken = "" then
    { result := .error (.unauthorized "Access token is required")
      calls := [], saves := 0 }
  else
    match googleValidateTimeLogic d.startTime d.endTime with
    | .error e => { result := .error e, calls := [], saves := 0 }
    | .ok _ =>
      { result := .ok ()
        calls := ["POST calendars/primary/events", "GET userinfo"]
        saves := 1 }

/-- Outcome of `MicrosoftService.createEvent`, also recording the
graph payload that was sent (if the create call was reached). -/
structure MsCreateOutcome where
  result : Except CalError Unit
  calls : List String
  saves : Nat
  sentPayload : Option MsGraphEventPayload
deriving Repr

/-- `MicrosoftService.createEvent`: first `validateCalendarAccess`
(one `GET me/calendar` transport call; `accessOk` is its outcome),
then time validation, then the create call and the mirror save.  The
outer catch wraps every failure message in
`Failed to create calendar event: …` (a `BadRequestException`). -/
def msCreateEvent (d : CreateEventDto) (now : Time) (accessOk : Bool) :
    MsCreateOutcome :=
  if ¬ accessOk then
    { result := .error (.badRequest
        ("Failed to create calendar event: " ++
          "Calendar access not authorized. Please connect and authorize your calendar."))
      calls := ["GET me/calendar"], saves := 0, sentPayload := none }
  else
    match msValidateTimeLogic now d.startTime d.endTime with
    | .error e =>
      { result := .error (.badRequest
          ("Failed to create calendar event: " ++ e.message))
        calls := ["GET me/calendar"], saves := 0, sentPayload := none }
    | .ok _ =>
      { result := .ok ()
        calls := ["GET me/calendar", "POST me/events"]
        saves := 1
        sentPayload := some (msCreateGraphPayload d) }

/-! ### Update event -/

/-- `UpdateEventDto`: every field optional (sparse update). -/
structure UpdateEventDto where
  title : Option String
  description : Option String
  startTime : Option Time
  endTime : Option Time
  timeZone : Option String
  isAllDay : Option Bool
  locationType : Option MeetingLocationType
  locationDetails : Option String
  attendees : Option (List AttendeeDto)
  organizer : Option String
  organizerName : Option String
  leadId : Option String
  outcome : Option String
deriving Repr, DecidableEq

/-- Google event time field: `{dateTime?, date?, timeZone}`. -/
structure GTimeField where
  dateTime : Option Time
  date : Option Time
  timeZone : String
deriving Repr, DecidableEq

/-- Start/end of an existing (or updated) Google event. -/
structure GoogleEventTimes where
  start : GTimeField
  «end» : GTimeField
deriving Repr, DecidableEq

/-- JS `new Date(a || b || fallback)` over two optional timestamps. -/
def jsDateOr (a b : Option Time) (fallback : Time) : Time :=
  ((a.orElse (fun _ => b)).getD fallback)

/-- Model of JS `new Date('')` (the fallback in the end-only branch
when the existing event carries neither `dateTime` nor `date`; never
reached for a real provider event, which always has one of them). -/
def emptyDateMs : Time := 0

/-- Start/end fields of a sparse provider update payload. -/
structure PayloadTimes where
  start : Option TimeSlot
  «end» : Option TimeSlot
deriving Repr, DecidableEq

/-- `GoogleCalendarService.updateEvent`, start/end handling of the
provider payload: a start-only update computes the new end from the
existing duration; an end-only update carries the existing start
forward; supplying both passes both through. -/
def googleUpdatePayloadTimes (d : UpdateEventDto) (ex : GoogleEventTimes)
    (now : Time) : PayloadTimes :=
  let p0 : PayloadTimes := ⟨none, none⟩
  let p1 :=
    match d.startTime with
    | some s =>
      let withStart : PayloadTimes :=
        { p0 with start := some ⟨s, jsOr d.timeZone ex.start.timeZone⟩ }
      match d.endTime with
      | some _ => withStart
      | none =>
        let existingStart := jsDateOr ex.start.dateTime ex.start.date now
        let existingEnd := jsDateOr ex.«end».dateTime ex.«end».date now
        let duration := existingEnd - existingStart
        let newEnd := s + duration
        { withStart with
            «end» := some ⟨newEnd, jsOr d.timeZone ex.«end».timeZone⟩ }
    | none => p0
  match d.endTime with
  | some e =>
    let withEnd :=
      { p1 with «end» := some ⟨e, jsOr d.timeZone ex.«end».timeZone⟩ }
    match d.startTime with
    | some _ => withEnd
    | none =>
      { withEnd with
          start := some
            ⟨jsDateOr ex.start.dateTime ex.start.date emptyDateMs,
              jsOr d.timeZone ex.start.timeZone⟩ }
  | none => p1

/-- Sparse start/end portion of a local-mirror update
(`updateData`): a field is written only when present. -/
structure MirrorTimes where
  startTime : Option Time
  endTime : Option Time
deriving Repr, DecidableEq

/-- `GoogleCalendarService.updateEvent`, mirror `updateData` times:
`startTime` is written only when the request supplied a start (value
from the provider's updated event), `endTime` only when the request
supplied an end. -/
def googleUpdateMirrorTimes (d : UpdateEventDto)
    (updated : GoogleEventTimes) (now : Time) : MirrorTimes :=
  { startTime :=
      match d.startTime with
      | some _ => some (jsDateOr updated.start.dateTime updated.start.date now)
      | none => none
    endTime :=
      match d.endTime with
      | some _ => some (jsDateOr updated.«end».dateTime updated.«end».date now)
      | none => none }

/-- Applying a sparse mirror time update to a stored record
(`findOneAndUpdate` writes only the supplied fields). -/
def applyMirrorTimes (m : MirrorTimes) (e : CalendarEventRec) :
    CalendarEventRec :=
  { e with
      startTime := m.startTime.getD e.startTime
      endTime := m.endTime.getD e.endTime }

/-- Start/end of an existing Microsoft Graph event (always present in
the Graph shape). -/
structure MsEventTimes where
  start : TimeSlot
  «end» : TimeSlot
deriving Repr, DecidableEq

/-- `MicrosoftService.updateEvent`, start/end handling of the
`updatePayload`: same sparse-merge scheme as the Google adapter, with
`'UTC'` as the final time-zone fallback. -/
def msUpdatePayloadTimes (d : UpdateEventDto) (ex : MsEventTimes) :
    PayloadTimes :=
  let p0 : PayloadTimes := ⟨none, none⟩
  let p1 :=
    match d.startTime with
    | some s =>
      let withStart : PayloadTimes :=
        { p0 with
            start := some ⟨s, jsOr d.timeZone (strOr ex.start.timeZone "UTC")⟩ }
      match d.endTime with
      | some _ => withStart
      | none =>
        let duration := ex.«end».dateTime - ex.start.dateTime
        let newEnd := s + duration
        { withStart with
            «end» := some
              ⟨newEnd, jsOr d.timeZone (strOr ex.«end».timeZone "UTC")⟩ }
    | none => p0
  match d.endTime with
  | some e =>
    let withEnd :=
      { p1 with
          «end» := some ⟨e, jsOr d.timeZone (strOr ex.«end».timeZone "UTC")⟩ }
    match d.startTime with
    | some _ => withEnd
    | none =>
      { withEnd with
          start := some
            ⟨ex.start.dateTime,
              jsOr d.timeZone (strOr ex.start.timeZone "UTC")⟩ }
  | none => p1

/-- `MicrosoftService.updateEvent`, mirror `updateData` times: the
request's own values (the `Z`-suffix normalization is the identity in
the millisecond model), each written only when present. -/
def msUpdateMirrorTimes (d : UpdateEventDto) : MirrorTimes :=
  { startTime := d.startTime, endTime := d.endTime }

/-- Online-meeting fields of a Microsoft update payload. -/
structure MsPayloadOnline where
  isOnlineMeeting : Option Bool
  onlineMeetingProvider : Option String
deriving Repr, DecidableEq

/-- `MicrosoftService.updateEvent`, location-kind branch of the
`updatePayload`: untouched when no kind is supplied; `IN_PERSON`
clears conferencing; `TEAMS` and every other kind set the Teams
online-meeting pair. -/
def msUpdatePayloadOnline (d : UpdateEventDto) : MsPayloadOnline :=
  match d.locationType with
  | none => ⟨none, none⟩
  | some .inPerson => ⟨some false, none⟩
  | some .teams => ⟨some true, some "teamsForBusiness"⟩
  | some _ => ⟨some true, some "teamsForBusiness"⟩

/-- `MicrosoftService.updateEvent` re-validates time logic only when
both start and end are supplied in the same request. -/
def msUpdateTimeCheck (d : UpdateEventDto) (now : Time) :
    Except CalError Unit :=
  match d.startTime, d.endTime with
  | some s, some e => msValidateTimeLogic now s e
  | _, _ => .ok ()

/-! ### Delete event (adapters and controller) -/

/-- JS `String.trim` (strip leading and trailing whitespace). -/
def trimStr (s : String) : String :=
  ⟨((s.data.dropWhile Char.isWhitespace).reverse.dropWhile
      Char.isWhitespace).reverse⟩

/-- `findOneAndUpdate({externalId}, {isActive: false})`: clear the
active flag of the first matching document. -/
def markFirstInactive (externalId : String) :
    List CalendarEventRec → List CalendarEventRec
  | [] => []
  | e :: es =>
    if e.externalId = externalId then { e with isActive := false } :: es
    else e :: markFirstInactive externalId es

/-- Observable outcome of an adapter delete: result (message and
event id of the success body), provider transport calls actually
attempted, and the mirror store afterwards. -/
structure DeleteOutcome where
  result : Except CalError (String × String)
  providerCalls : List String
  db : List CalendarEventRec
deriving Repr

/-- `GoogleCalendarService.deleteEvent`: when the token is usable
(truthy and non-blank after trimming) the provider delete is
attempted, but its outcome (`_providerOutcome`) is caught and only
logged; the mirror is always soft-deleted and the call reports
success. -/
def googleDeleteEvent (accessToken eventId : String)
    (_providerOutcome : Except CalError Unit)
    (db : List CalendarEventRec) : DeleteOutcome :=
  let usable := accessToken ≠ "" ∧ trimStr accessToken ≠ ""
  let calls :=
    if usable then ["DELETE calendars/primary/events/" ++ eventId] else []
  -- the catch block swallows the provider outcome whatever it is
  { result := .ok ("Event deleted successfully", eventId)
    providerCalls := calls
    db := markFirstInactive eventId db }

/-- `MicrosoftService.deleteEvent`: identical structure to the Google
adapter (usable-token check, non-fatal provider delete, unconditional
mirror soft delete, success response). -/
def msDeleteEvent (accessToken eventId : String)
    (_providerOutcome : Except CalError Unit)
    (db : List CalendarEventRec) : DeleteOutcome :=
  let usable := accessToken ≠ "" ∧ trimStr accessToken ≠ ""
  let calls := if usable then ["DELETE me/events/" ++ eventId] else []
  { result := .ok ("Event deleted successfully", eventId)
    providerCalls := calls
    db := markFirstInactive eventId db }

/-- `deleteOne({externalId})` on the calendar-event collection:
remove the first matching document, reporting the deleted count. -/
def deleteOneCalendar (externalId : String) :
    List CalendarEventRec → List CalendarEventRec × Nat
  | [] => ([], 0)
  | e :: es =>
    if e.externalId = externalId then (es, 1)
    else
      (e :: (deleteOneCalendar externalId es).1,
        (deleteOneCalendar externalId es).2)

/-- `deleteOne({_id})` on the logged-meeting collection. -/
def deleteOneLogged (id : String) :
    List LoggedMeetingRec → List LoggedMeetingRec × Nat
  | [] => ([], 0)
  | m :: ms =>
    if m.id = id then (ms, 1)
    else
      (m :: (deleteOneLogged id ms).1, (deleteOneLogged id ms).2)

/-- The two local collections behind the controller. -/
structure LocalDb where
  calendarEvents : List CalendarEventRec
  loggedMeetings : List LoggedMeetingRec
deriving Repr

/-- Observable outcome of `CalenderSyncController.deleteEvent`: the
response (message, event id, status code on success), the local store
afterwards, and whether the request was dispatched to a provider
adapter at all. -/
structure ControllerDeleteOutcome where
  result : Except CalError (String × String × Nat)
  db : LocalDb
  providerDispatched : Bool
deriving Repr

/-- `CalenderSyncController.deleteEvent`: with either header missing
the event is removed from both local collections via `deleteOne`
(no adapter involved); with both headers present the pair is
validated and the request dispatched to the matching adapter (the
adapter's own behaviour is modelled by `googleDeleteEvent` /
`msDeleteEvent`; `adapterResult` stands for its response). -/
def controllerDeleteEvent (eventId : String)
    (authHeader provider : Option String) (db : LocalDb)
    (adapterResult : Except CalError (String × String × Nat)) :
    ControllerDeleteOutcome :=
  if ¬ jsTruthy authHeader ∨ ¬ jsTruthy provider then
    let cal := deleteOneCalendar eventId db.calendarEvents
    let log := deleteOneLogged eventId db.loggedMeetings
    if cal.2 + log.2 > 0 then
      { result := .ok ("Event deleted from local database", eventId, 200)
        db := ⟨cal.1, log.1⟩
        providerDispatched := false }
    else
      { result := .error (.badRequest "Event not found in local database")
        db := ⟨cal.1, log.1⟩
        providerDispatched := false }
  else
    match validateHeaders authHeader provider with
    | .error e =>
      { result := .error e, db := db, providerDispatched := false }
    | .ok _ =>
      { result := adapterResult, db := db, providerDispatched := true }

/-! ### Meeting logger -/

/-- `FollowUpTaskDto`. -/
structure FollowUpTaskDto where
  title : String
  description : Option String
  dueDate : String
  priority : Option String
deriving Repr, DecidableEq

/-- `LogMeetingDto`. -/
structure LogMeetingDto where
  leadId : String
  title : String
  meetingType : MeetingType
  virtualMeetingProvider : Option String
  meetingDateTime : Time
  duration : Option Int
  location : Option String
  summary : Option String
  outcome : Option String
  participants : List Person
  createFollowUpTask : Option Bool
  followUpTask : Option FollowUpTaskDto
  attachment : Option String
deriving Repr, DecidableEq

/-- Outcome of `logMeeting`: the response (meeting id plus whichever
of activity id / task id were obtained) and the number of
logged-meeting records persisted. -/
structure LogMeetingOutcome where
  result : Except CalError (String × Option String × Option String)
  saves : Nat
deriving Repr

/-- `CalenderSyncController.logMeeting`: three validations (org id
present; a virtual meeting carries a provider tag; a requested
follow-up task carries details), all before the record is built and
saved; then the save, the best-effort activity call (`activityId` is
its outcome, `none` when it failed) and the optional task creation
(`taskId` is the collaborator's id).  A thrown validation error is
re-wrapped by the outer catch as
`Failed to log meeting: <message>`. -/
def logMeeting (d : LogMeetingDto) (organizationId : String)
    (savedId : String) (activityId : Option String)
    (taskId : Option String) : LogMeetingOutcome :=
  if organizationId = "" then
    { result := .error (.badRequest
        "Failed to log meeting: X-Organization-ID header is required")
      saves := 0 }
  else if d.meetingType = .virtual ∧ ¬ jsTruthy d.virtualMeetingProvider then
    { result := .error (.badRequest
        ("Failed to log meeting: " ++
          "Virtual meeting provider is required for virtual meetings"))
      saves := 0 }
  else if d.createFollowUpTask.getD false = true ∧ d.followUpTask.isNone then
    { result := .error (.badRequest
        ("Failed to log meeting: " ++
          "Follow-up task details are required when createFollowUpTask is true"))
      saves := 0 }
  else
    { result := .ok (savedId, activityId,
        if d.createFollowUpTask.getD false = true ∧ d.followUpTask.isSome then
          taskId
        else none)
      saves := 1 }

/-! ### Contact de-duplication -/

/-- JS `Map.set` when the key is absent (`if (!map.has(k)) map.set`):
ordered association list, insertion order preserved. -/
def insertIfAbsent {α : Type} (k : String) (v : α)
    (m : List (String × α)) : List (String × α) :=
  if m.any (fun p => p.1 == k) then m else m ++ [(k, v)]

/-- Google `ContactWithDetails`. -/
structure GContact where
  id : String
  name : String
  email : String
  phone : String
  organization : String
  title : String
deriving Repr, DecidableEq

/-- `GoogleCalendarService.removeDuplicateContacts`: key on the
lowercased email, keep the first contact per key, return the map's
values in insertion order. -/
def googleRemoveDuplicateContacts (contacts : List GContact) :
    List GContact :=
  (contacts.foldl (fun m c => insertIfAbsent (lowerStr c.email) c m)
    []).map Prod.snd

/-- Formatted Microsoft contact as consumed by the de-duplication
routine (only the email addresses drive it). -/
structure MContact where
  id : String
  displayName : Option String
  emailAddresses : List String
deriving Repr, DecidableEq

/-- One contact's `emailAddresses.forEach` step of
`MicrosoftService.removeDuplicateContacts`: each lowercased address
is keyed to the contact if the key is absent. -/
def msInsertEmails (c : MContact) (m : List (String × MContact)) :
    List (String × MContact) :=
  c.emailAddresses.foldl (fun m' e => insertIfAbsent (lowerStr e) c m') m

/-- The `contacts.forEach` loop of
`MicrosoftService.removeDuplicateContacts` over an accumulator map. -/
def msFold (contacts : List MContact) (m : List (String × MContact)) :
    List (String × MContact) :=
  contacts.foldl (fun acc c => msInsertEmails c acc) m

/-- `MicrosoftService.removeDuplicateContacts`: for every email
address of every contact, key on the lowercased address and keep the
first contact per key; return the map's values in insertion order. -/
def msRemoveDuplicateContacts (contacts : List MContact) :
    List MContact :=
  (msFold contacts []).map Prod.snd

/-! ### Concrete fixtures used by counterexamples and witnesses -/

/-- An update request with every field absent. -/
def noUpdate : UpdateEventDto :=
  { title := none, description := none, startTime := none, endTime := none
    timeZone := none, isAllDay := none, locationType := none
    locationDetails := none, attendees := none, organizer := none
    organizerName := none, leadId := none, outcome := none }

/-- A plain create request (one-minute Teams meeting). -/
def baseCreate : CreateEventDto :=
  { title := "standup", description := none, startTime := 0
    endTime := 60000, timeZone := none, attendees := []
    locationType := .teams, locationDetails := none, isAllDay := none
    organizer := none, leadId := none, outcome := none }

/-- A stored mirror record (one-minute event starting at epoch). -/
def baseStored : CalendarEventRec :=
  { externalId := "evt-1", provider := "google", userId := none
    leadId := none, title := "standup", description := none
    startTime := 0, endTime := 60000, timeZone := none, isAllDay := none
    locationType := none, locationDetails := none, attendees := []
    organizer := none, organizerName := none, meetingLink := none
    isOnlineMeeting := none, onlineMeetingProvider := none
    outcome := none, isActive := true }

/-- A plain in-person log-meeting request. -/
def baseLogDto : LogMeetingDto :=
  { leadId := "lead-1", title := "sync", meetingType := .inPerson
    virtualMeetingProvider := none, meetingDateTime := 0, duration := none
    location := none, summary := none, outcome := none, participants := []
    createFollowUpTask := none, followUpTask := none, attachment := none }

/-- Existing Google event times: start 0, end 60000 (UTC). -/
def gexBase : GoogleEventTimes :=
  ⟨⟨some 0, none, "UTC"⟩, ⟨some 60000, none, "UTC"⟩⟩

/-- The same Google event after the provider applied a start-only
move to 100000 (duration preserved by the provider). -/
def gexUpdated : GoogleEventTimes :=
  ⟨⟨some 100000, none, "UTC"⟩, ⟨some 160000, none, "UTC"⟩⟩

/-- Existing Microsoft event times: start 0, end 60000 (UTC). -/
def mexBase : MsEventTimes := ⟨⟨0, "UTC"⟩, ⟨60000, "UTC"⟩⟩

/-! ### Theorems -/

example :
    validateHeaders (some "Bearer tok") (some "google") =
      .ok ("tok", .google) := rfl
example :
    validateHeaders (some "Basic abc") (some "google") =
      .ok ("Basic abc", .google) := rfl
example :
    validateHeaders (some "Bearer ") (some "MicroSoft") =
      .error (.unauthorized
        "Invalid authorization header format. Must be Bearer token") := by
  rfl
example :
    validateHeaders (some "Bearer tok") (some "yahoo") =
      .error (.badRequest
        "Invalid calendar provider. Must be one of: google, microsoft") := by
  rfl
example :
    validateHeaders none (some "google") =
      .error (.unauthorized "Authorization header is required") := rfl

/-- C5 counterexample: the claim says a malformed, non-Bearer
authorization value raises an "unauthorized" error.  In the code,
`authHeader.replace('Bearer ', '')` leaves a non-Bearer value intact,
so `"Basic abc"` is accepted as the access token and no error is
raised. -/
theorem C5_counterexample_nonBearer_accepted :
    validateHeaders (some "Basic abc") (some "google") =
      .ok ("Basic abc", .google) := rfl

/-- C5 (amended): when both headers are present (authorization
non-empty), `validateHeaders` behaves as follows: if the provider tag
case-insensitively matches `google` or `microsoft`, the access token
is the authorization value with its first `"Bearer "` occurrence
removed, and an "unauthorized" error is raised exactly when that
remainder is empty (so non-Bearer values with non-empty text are
accepted as-is); otherwise a "bad request" error is raised (missing
or invalid provider tag). -/
theorem C5_validateHeaders_amended (auth prov : String) (hauth : auth ≠ "") :
    validateHeaders (some auth) (some prov) =
      if lowerStr prov = "google" ∨ lowerStr prov = "microsoft" then
        (if replaceFirst auth "Bearer " = "" then
          .error (.unauthorized
            "Invalid authorization header format. Must be Bearer token")
        else
          .ok (replaceFirst auth "Bearer ",
            if lowerStr prov = "google" then .google else .microsoft))
      else if prov = "" then
        .error (.badRequest "X-Calendar-Provider header is required")
      else
        .error (.badRequest
          "Invalid calendar provider. Must be one of: google, microsoft") := by
  have hja : jsTruthy (some auth) = true := by simp [jsTruthy, hauth]
  by_cases hp0 : prov = ""
  · subst hp0
    have hl : lowerStr "" = "" := rfl
    simp [validateHeaders, jsTruthy, hja, hl, hauth]
  · have hjp : jsTruthy (some prov) = true := by simp [jsTruthy, hp0]
    by_cases hg : lowerStr prov = "google"
    · simp [validateHeaders, hja, hjp, hg]
    · by_cases hm : lowerStr prov = "microsoft"
      · simp [validateHeaders, hja, hjp, hg, hm]
      · simp [validateHeaders, hja, hjp, hg, hm, hp0]

/-- C5 witness: a concrete Bearer header with a mixed-case provider
tag is accepted with the token part extracted. -/
theorem C5_witness :
    validateHeaders (some "Bearer t") (some "GOOGLE") =
      .ok ("t", .google) := by
  have h := C5_validateHeaders_amended "Bearer t" "GOOGLE" (by decide)
  exact h.trans rfl

lemma filter_orderedInsert_mem (k : Time) (x : FeedItem)
    (l : List FeedItem) (hx : x.startTime = k) :
    (List.orderedInsert feedGE x l).filter (fun a => a.startTime == k) =
      x :: l.filter (fun a => a.startTime == k) := by
  induction l with
  | nil => simp [hx]
  | cons y ys ih =>
    rw [List.orderedInsert]
    by_cases hr : feedGE x y
    · rw [if_pos hr]
      simp [List.filter_cons, hx]
    · rw [if_neg hr]
      have hlt : x.startTime < y.startTime := lt_of_not_le hr
      have hy : (y.startTime == k) = false := by
        apply beq_eq_false_iff_ne.mpr
        intro h
        rw [h, ← hx] at hlt
        exact absurd hlt (lt_irrefl _)
      rw [List.filter_cons, hy, ih]
      simp [List.filter_cons, hy]

lemma filter_orderedInsert_nonmem (k : Time) (x : FeedItem)
    (l : List FeedItem) (hx : x.startTime ≠ k) :
    (List.orderedInsert feedGE x l).filter (fun a => a.startTime == k) =
      l.filter (fun a => a.startTime == k) := by
  have hxf : (x.startTime == k) = false := beq_eq_false_iff_ne.mpr hx
  induction l with
  | nil => simp [hxf]
  | cons y ys ih =>
    rw [List.orderedInsert]
    by_cases hr : feedGE x y
    · rw [if_pos hr]
      simp [List.filter_cons, hxf]
    · rw [if_neg hr]
      rw [List.filter_cons, List.filter_cons, ih]

lemma filter_sortByStartDesc (k : Time) (l : List FeedItem) :
    (sortByStartDesc l).filter (fun a => a.startTime == k) =
      l.filter (fun a => a.startTime == k) := by
  induction l with
  | nil => rfl
  | cons x xs ih =>
    rw [sortByStartDesc, List.insertionSort]
    by_cases hx : x.startTime = k
    · rw [filter_orderedInsert_mem k x _ hx, List.filter_cons]
      simp only [hx, beq_self_eq_true, if_true]
      rw [← sortByStartDesc, ih]
    · rw [filter_orderedInsert_nonmem k x _ hx, List.filter_cons,
        beq_eq_false_iff_ne.mpr hx]
      rw [← sortByStartDesc, ih]
      simp

/-- C4: the unified local feed is sorted descending by start time
(whenever `a` precedes `b` in the output, `a.startTime ≥ b.startTime`);
the sort is stable (for every start-time key, the items with that key
appear in exactly their input order — calendar events before logged
meetings, each in query order); and re-sorting the produced feed
yields the same ordered output. -/
theorem C4_getLocalEvents_sorted_stable (cal : List CalendarEventRec)
    (mtg : List LoggedMeetingRec) (up : UserProfile) (now : Time) :
    (getLocalEvents cal mtg up now).Pairwise
        (fun a b => b.startTime ≤ a.startTime) ∧
    (∀ k : Time,
      (getLocalEvents cal mtg up now).filter (fun a => a.startTime == k) =
        (cal.map (mapCalendarEvent up) ++
          mtg.map (mapLoggedMeeting now)).filter
          (fun a => a.startTime == k)) ∧
    sortByStartDesc (getLocalEvents cal mtg up now) =
      getLocalEvents cal mtg up now := by
  refine ⟨?_, ?_, ?_⟩
  · exact List.sorted_insertionSort feedGE _
  · intro k
    exact filter_sortByStartDesc k _
  · exact List.Sorted.insertionSort_eq (List.sorted_insertionSort feedGE _)

lemma googleValidateTimeLogic_error_of_bad (s e : Time)
    (h : e ≤ s ∨ differenceInMinutes e s > 1440) :
    ∃ m, googleValidateTimeLogic s e = .error (.badRequest m) := by
  unfold googleValidateTimeLogic
  by_cases h1 : s ≥ e
  · exact ⟨_, by rw [if_pos h1]⟩
  · have h2 : differenceInMinutes e s > 1440 := by
      rcases h with h | h
      · exact absurd h h1
      · exact h
    exact ⟨_, by rw [if_neg h1, if_pos h2]⟩

lemma msValidateTimeLogic_error_of_bad (now s e : Time)
    (h : e ≤ s ∨ differenceInMinutes e s > 1440) :
    ∃ m, msValidateTimeLogic now s e = .error (.badRequest m) := by
  unfold msValidateTimeLogic
  by_cases h0 : s < now
  · exact ⟨_, by rw [if_pos h0]⟩
  · by_cases h1 : e ≤ s
    · exact ⟨_, by rw [if_neg h0, if_pos h1]⟩
    · have h2 : differenceInMinutes e s > 24 * 60 := by
        rcases h with h | h
        · exact absurd h h1
        · simpa using h
      exact ⟨_, by rw [if_neg h0, if_neg h1, if_pos h2]⟩

/-- C10: the Microsoft adapter's time validation rejects any start
time earlier than the clock with the `Start time cannot be in the
past` InvalidRequest error — in `validateTimeLogic` itself, in
`createEvent`, and in `updateEvent`'s both-times re-validation — while
the Google adapter's time validation takes no clock at all and accepts
a concrete past-start input that Microsoft rejects. -/
theorem C10_ms_past_start_rejected :
    (∀ (now s e : Time), s < now →
      msValidateTimeLogic now s e =
        .error (.badRequest "Start time cannot be in the past")) ∧
    (∀ (d : CreateEventDto) (now : Time), d.startTime < now →
      (msCreateEvent d now true).result =
        .error (.badRequest
          "Failed to create calendar event: Start time cannot be in the past")) ∧
    (∀ (d : UpdateEventDto) (now s e : Time),
      d.startTime = some s → d.endTime = some e → s < now →
      msUpdateTimeCheck d now =
        .error (.badRequest "Start time cannot be in the past")) ∧
    (googleValidateTimeLogic 0 60000 = .ok () ∧
      msValidateTimeLogic 1000 0 60000 =
        .error (.badRequest "Start time cannot be in the past")) := by
  have hval : ∀ (now s e : Time), s < now →
      msValidateTimeLogic now s e =
        .error (.badRequest "Start time cannot be in the past") := by
    intro now s e h
    unfold msValidateTimeLogic
    rw [if_pos h]
  refine ⟨hval, ?_, ?_, rfl, rfl⟩
  · intro d now h
    unfold msCreateEvent
    simp only [not_true, if_false]
    rw [hval now d.startTime d.endTime h]
    rfl
  · intro d now s e hs he h
    unfold msUpdateTimeCheck
    rw [hs, he]
    exact hval now s e h

/-- C10 witness: a start one second before the clock is rejected by
the Microsoft validation. -/
theorem C10_witness :
    msValidateTimeLogic 1000 0 60000 =
      .error (.badRequest "Start time cannot be in the past") :=
  C10_ms_past_start_rejected.1 1000 0 60000 (by decide)

/-- C2 counterexample: a Microsoft create request whose end equals
its start is rejected, but only after `validateCalendarAccess` has
already made one transport call (`GET me/calendar`) — not the zero
transport calls the claim states. -/
theorem C2_counterexample_ms_precall :
    msCreateEvent { baseCreate with startTime := 1000, endTime := 1000 }
        0 true =
      { result := .error (.badRequest
          "Failed to create calendar event: End time must be after start time")
        calls := ["GET me/calendar"], saves := 0, sentPayload := none } := rfl

/-- C2 (amended): a create request whose end is not strictly after
its start, or whose duration exceeds 1440 whole minutes, is rejected
with an InvalidRequest error before the event-creation call, and no
mirror record is persisted.  The Google adapter makes zero transport
calls before rejecting; the Microsoft adapter has already made exactly
one calendar-access check call (`GET me/calendar`), but no creation
call follows. -/
theorem C2_create_validation_precall_amended
    (d : CreateEventDto) (tok : String) (now : Time)
    (hbad : d.endTime ≤ d.startTime ∨
      differenceInMinutes d.endTime d.startTime > 1440)
    (htok : tok ≠ "") :
    ((∃ m, (googleCreateEvent tok d).result = .error (.badRequest m)) ∧
      (googleCreateEvent tok d).calls = [] ∧
      (googleCreateEvent tok d).saves = 0) ∧
    ((∃ m, (msCreateEvent d now true).result = .error (.badRequest m)) ∧
      (msCreateEvent d now true).calls = ["GET me/calendar"] ∧
      (msCreateEvent d now true).saves = 0 ∧
      (msCreateEvent d now true).sentPayload = none) := by
  obtain ⟨mg, hmg⟩ := googleValidateTimeLogic_error_of_bad d.startTime d.endTime hbad
  obtain ⟨mm, hmm⟩ := msValidateTimeLogic_error_of_bad now d.startTime d.endTime hbad
  constructor
  · unfold googleCreateEvent
    rw [if_neg htok, hmg]
    exact ⟨⟨mg, rfl⟩, rfl, rfl⟩
  · unfold msCreateEvent
    simp only [not_true, if_false]
    rw [hmm]
    exact ⟨⟨_, rfl⟩, rfl, rfl, rfl⟩

/-- C2 witness: the zero-duration request is rejected by both
adapters with no creation call and no persistence. -/
theorem C2_witness :
    ((∃ m, (googleCreateEvent "t"
        { baseCreate with startTime := 1000, endTime := 1000 }).result =
          .error (.badRequest m)) ∧
      (googleCreateEvent "t"
        { baseCreate with startTime := 1000, endTime := 1000 }).calls = [] ∧
      (googleCreateEvent "t"
        { baseCreate with startTime := 1000, endTime := 1000 }).saves = 0) ∧
    ((∃ m, (msCreateEvent
        { baseCreate with startTime := 1000, endTime := 1000 } 0 true).result =
          .error (.badRequest m)) ∧
      (msCreateEvent
        { baseCreate with startTime := 1000, endTime := 1000 } 0 true).calls =
        ["GET me/calendar"] ∧
      (msCreateEvent
        { baseCreate with startTime := 1000, endTime := 1000 } 0 true).saves
        = 0 ∧
      (msCreateEvent
        { baseCreate with startTime := 1000, endTime := 1000 } 0
          true).sentPayload = none) :=
  C2_create_validation_precall_amended
    { baseCreate with startTime := 1000, endTime := 1000 } "t" 0
    (Or.inl (by decide)) (by decide)

lemma jsDateOr_some (t : Time) (b : Option Time) (f : Time) :
    jsDateOr (some t) b f = t := rfl

/-- C1 counterexample: for a start-only update of a one-minute event
(old start 0, old end 60000) to new start 100000, the Google provider
payload's end is the duration-preserving 160000, but the local-mirror
update carries no end time at all: the stored end stays 60000, not
`newStart + (oldEnd - oldStart)` as the claim states for the
mirror. -/
theorem C1_counterexample_mirror_end_not_updated :
    (googleUpdatePayloadTimes { noUpdate with startTime := some 100000 }
        gexBase 0).«end» = some ⟨160000, "UTC"⟩ ∧
    (googleUpdateMirrorTimes { noUpdate with startTime := some 100000 }
        gexUpdated 0).endTime = none ∧
    (applyMirrorTimes
        (googleUpdateMirrorTimes { noUpdate with startTime := some 100000 }
          gexUpdated 0) baseStored).endTime = 60000 ∧
    (60000 : Time) ≠ 100000 + (60000 - 0) :=
  ⟨rfl, rfl, rfl, by decide⟩

/-- C1 (amended): for a start-only update, both adapters' provider
payloads set the new end to `newStart + (oldEnd - oldStart)`
(duration preserved at the provider), while the local-mirror update
writes only the start time — the stored end time is left unchanged;
for an end-only update, both provider payloads carry the existing
start forward and the mirror leaves the stored start unchanged. -/
theorem C1_sparse_update_times_amended (d : UpdateEventDto)
    (gex updated : GoogleEventTimes) (mex : MsEventTimes)
    (rec : CalendarEventRec) (now : Time) (os oe : Time)
    (hgs : gex.start.dateTime = some os)
    (hge : gex.«end».dateTime = some oe)
    (hms : mex.start.dateTime = os)
    (hme : mex.«end».dateTime = oe) :
    (∀ s, d.startTime = some s → d.endTime = none →
      (googleUpdatePayloadTimes d gex now).«end».map TimeSlot.dateTime =
          some (s + (oe - os)) ∧
        (msUpdatePayloadTimes d mex).«end».map TimeSlot.dateTime =
          some (s + (oe - os)) ∧
        (googleUpdateMirrorTimes d updated now).endTime = none ∧
        (msUpdateMirrorTimes d).endTime = none ∧
        (applyMirrorTimes (googleUpdateMirrorTimes d updated now)
            rec).endTime = rec.endTime ∧
        (applyMirrorTimes (msUpdateMirrorTimes d) rec).endTime =
          rec.endTime) ∧
    (∀ e, d.endTime = some e → d.startTime = none →
      (googleUpdatePayloadTimes d gex now).start.map TimeSlot.dateTime =
          some os ∧
        (msUpdatePayloadTimes d mex).start.map TimeSlot.dateTime = some os ∧
        (googleUpdateMirrorTimes d updated now).startTime = none ∧
        (msUpdateMirrorTimes d).startTime = none ∧
        (applyMirrorTimes (googleUpdateMirrorTimes d updated now)
            rec).startTime = rec.startTime ∧
        (applyMirrorTimes (msUpdateMirrorTimes d) rec).startTime =
          rec.startTime) := by
  constructor
  · intro s hs hend
    refine ⟨?_, ?_, ?_, ?_, ?_, ?_⟩
    · simp [googleUpdatePayloadTimes, hs, hend, hgs, hge, jsDateOr_some]
    · simp [msUpdatePayloadTimes, hs, hend, hms, hme]
    · simp [googleUpdateMirrorTimes, hend]
    · simp [msUpdateMirrorTimes, hend]
    · simp [applyMirrorTimes, googleUpdateMirrorTimes, hend]
    · simp [applyMirrorTimes, msUpdateMirrorTimes, hend]
  · intro e he hstart
    refine ⟨?_, ?_, ?_, ?_, ?_, ?_⟩
    · simp [googleUpdatePayloadTimes, he, hstart, hgs, jsDateOr_some]
    · simp [msUpdatePayloadTimes, he, hstart, hms]
    · simp [googleUpdateMirrorTimes, hstart]
    · simp [msUpdateMirrorTimes, hstart]
    · simp [applyMirrorTimes, googleUpdateMirrorTimes, hstart]
    · simp [applyMirrorTimes, msUpdateMirrorTimes, hstart]

/-- C1 witness: concrete start-only move of a one-minute event to
100000 — provider payloads end at 160000, mirrors leave the stored
end untouched. -/
theorem C1_witness :
    (googleUpdatePayloadTimes { noUpdate with startTime := some 100000 }
        gexBase 0).«end».map TimeSlot.dateTime = some (100000 + (60000 - 0)) ∧
    (msUpdatePayloadTimes { noUpdate with startTime := some 100000 }
        mexBase).«end».map TimeSlot.dateTime = some (100000 + (60000 - 0)) ∧
    (googleUpdateMirrorTimes { noUpdate with startTime := some 100000 }
        gexUpdated 0).endTime = none ∧
    (msUpdateMirrorTimes
        { noUpdate with startTime := some 100000 }).endTime = none ∧
    (applyMirrorTimes
        (googleUpdateMirrorTimes { noUpdate with startTime := some 100000 }
          gexUpdated 0) baseStored).endTime = baseStored.endTime ∧
    (applyMirrorTimes
        (msUpdateMirrorTimes { noUpdate with startTime := some 100000 })
        baseStored).endTime = baseStored.endTime :=
  (C1_sparse_update_times_amended
    { noUpdate with startTime := some 100000 } gexBase gexUpdated mexBase
    baseStored 0 0 60000 rfl rfl rfl rfl).1 100000 rfl rfl

lemma deleteOneCalendar_count_of_mem (k : String)
    (l : List CalendarEventRec) (h : ∃ r ∈ l, r.externalId = k) :
    (deleteOneCalendar k l).2 = 1 ∧
    (deleteOneCalendar k l).1.length + 1 = l.length := by
  induction l with
  | nil => simp at h
  | cons e es ih =>
    rw [deleteOneCalendar]
    by_cases hc : e.externalId = k
    · rw [if_pos hc]
      exact ⟨rfl, rfl⟩
    · rw [if_neg hc]
      obtain ⟨r, hr, hrk⟩ := h
      rcases List.mem_cons.mp hr with rfl | hr
      · exact absurd hrk hc
      · obtain ⟨h1, h2⟩ := ih ⟨r, hr, hrk⟩
        exact ⟨h1, by simpa using h2⟩

/-- C3 counterexample: a delete request with neither header, matching
the stored record `evt-1`, removes the record from the local store
outright (`deleteOne`) — afterwards the calendar collection is empty,
so no record "still exists with its active flag cleared" as the claim
states.  The success response and the absence of any provider
dispatch do hold. -/
theorem C3_counterexample_hard_delete :
    controllerDeleteEvent "evt-1" none none ⟨[baseStored], []⟩
        (.error (.badRequest "ignored")) =
      { result := .ok ("Event deleted from local database", "evt-1", 200)
        db := ⟨[], []⟩
        providerDispatched := false } := rfl

/-- C3 (amended): a delete request with either header missing, where
a local calendar record matching the external id exists, removes that
record from the store (hard delete via `deleteOne`, the collection
shrinks by one), also runs `deleteOne` on the logged-meeting
collection, returns the success response, and never dispatches to a
provider adapter. -/
theorem C3_local_delete_amended (eventId : String) (db : LocalDb)
    (auth prov : Option String)
    (ar : Except CalError (String × String × Nat))
    (hhdr : ¬ jsTruthy auth ∨ ¬ jsTruthy prov)
    (hex : ∃ r ∈ db.calendarEvents, r.externalId = eventId) :
    (controllerDeleteEvent eventId auth prov db ar).result =
        .ok ("Event deleted from local database", eventId, 200) ∧
    (controllerDeleteEvent eventId auth prov db ar).providerDispatched
        = false ∧
    (controllerDeleteEvent eventId auth prov db ar).db.calendarEvents =
        (deleteOneCalendar eventId db.calendarEvents).1 ∧
    (controllerDeleteEvent eventId auth prov db ar).db.loggedMeetings =
        (deleteOneLogged eventId db.loggedMeetings).1 ∧
    (controllerDeleteEvent eventId auth prov db
        ar).db.calendarEvents.length + 1 = db.calendarEvents.length := by
  obtain ⟨hc1, hc2⟩ :=
    deleteOneCalendar_count_of_mem eventId db.calendarEvents hex
  unfold controllerDeleteEvent
  rw [if_pos hhdr]
  simp only [hc1]
  have hpos : 0 < 1 + (deleteOneLogged eventId db.loggedMeetings).2 := by
    omega
  rw [if_pos hpos]
  exact ⟨rfl, rfl, rfl, rfl, hc2⟩

/-- C3 witness: the concrete store holding only `evt-1`. -/
theorem C3_witness :
    (controllerDeleteEvent "evt-1" none none ⟨[baseStored], []⟩
        (.error (.badRequest "ignored"))).result =
      .ok ("Event deleted from local database", "evt-1", 200) ∧
    (controllerDeleteEvent "evt-1" none none ⟨[baseStored], []⟩
        (.error (.badRequest "ignored"))).providerDispatched = false ∧
    (controllerDeleteEvent "evt-1" none none ⟨[baseStored], []⟩
        (.error (.badRequest "ignored"))).db.calendarEvents =
      (deleteOneCalendar "evt-1" [baseStored]).1 ∧
    (controllerDeleteEvent "evt-1" none none ⟨[baseStored], []⟩
        (.error (.badRequest "ignored"))).db.loggedMeetings =
      (deleteOneLogged "evt-1" []).1 ∧
    (controllerDeleteEvent "evt-1" none none ⟨[baseStored], []⟩
        (.error (.badRequest "ignored"))).db.calendarEvents.length + 1 =
      ([baseStored] : List CalendarEventRec).length :=
  C3_local_delete_amended "evt-1" ⟨[baseStored], []⟩ none none
    (.error (.badRequest "ignored")) (Or.inl (by decide))
    ⟨baseStored, by simp, rfl⟩

lemma markFirstInactive_spec (k : String) (l : List CalendarEventRec)
    (h : ∃ r ∈ l, r.externalId = k) :
    ∃ r' ∈ markFirstInactive k l, r'.externalId = k ∧
      r'.isActive = false := by
  induction l with
  | nil => simp at h
  | cons e es ih =>
    rw [markFirstInactive]
    by_cases hc : e.externalId = k
    · rw [if_pos hc]
      exact ⟨{ e with isActive := false }, List.mem_cons_self _ _, hc, rfl⟩
    · rw [if_neg hc]
      obtain ⟨r, hr, hrk⟩ := h
      rcases List.mem_cons.mp hr with rfl | hr
      · exact absurd hrk hc
      · obtain ⟨r', hr', hp⟩ := ih ⟨r, hr, hrk⟩
        exact ⟨r', List.mem_cons_of_mem _ hr', hp⟩

/-- C7: with a usable (non-blank) token, a provider-side delete
failure is non-fatal for both adapters: the provider delete is
attempted, the mirror record matching the external id is soft-deleted
(still present, active flag cleared), the success response carrying
the event id is returned, and the outcome is identical to the one
where the provider call succeeds. -/
theorem C7_delete_provider_failure_nonfatal (token eventId : String)
    (err : CalError) (db : List CalendarEventRec)
    (husable : trimStr token ≠ "") :
    (googleDeleteEvent token eventId (.error err) db).result =
        .ok ("Event deleted successfully", eventId) ∧
    (msDeleteEvent token eventId (.error err) db).result =
        .ok ("Event deleted successfully", eventId) ∧
    (googleDeleteEvent token eventId (.error err) db).db =
        markFirstInactive eventId db ∧
    (msDeleteEvent token eventId (.error err) db).db =
        markFirstInactive eventId db ∧
    googleDeleteEvent token eventId (.error err) db =
        googleDeleteEvent token eventId (.ok ()) db ∧
    msDeleteEvent token eventId (.error err) db =
        msDeleteEvent token eventId (.ok ()) db ∧
    (googleDeleteEvent token eventId (.error err) db).providerCalls =
        ["DELETE calendars/primary/events/" ++ eventId] ∧
    (msDeleteEvent token eventId (.error err) db).providerCalls =
        ["DELETE me/events/" ++ eventId] ∧
    ((∃ r ∈ db, r.externalId = eventId) →
      ∃ r' ∈ (googleDeleteEvent token eventId (.error err) db).db,
        r'.externalId = eventId ∧ r'.isActive = false) := by
  have htok : token ≠ "" := by
    intro h
    rw [h] at husable
    exact husable rfl
  refine ⟨rfl, rfl, rfl, rfl, rfl, rfl, ?_, ?_, ?_⟩
  · simp [googleDeleteEvent, htok, husable]
  · simp [msDeleteEvent, htok, husable]
  · intro hex
    exact markFirstInactive_spec eventId db hex

/-- C7 witness: token `"tok"`, provider delete throwing, store
holding `evt-1`. -/
theorem C7_witness :
    (googleDeleteEvent "tok" "evt-1" (.error (.badRequest "boom"))
        [baseStored]).result = .ok ("Event deleted successfully", "evt-1") ∧
    (msDeleteEvent "tok" "evt-1" (.error (.badRequest "boom"))
        [baseStored]).result = .ok ("Event deleted successfully", "evt-1") ∧
    (googleDeleteEvent "tok" "evt-1" (.error (.badRequest "boom"))
        [baseStored]).db = markFirstInactive "evt-1" [baseStored] ∧
    (msDeleteEvent "tok" "evt-1" (.error (.badRequest "boom"))
        [baseStored]).db = markFirstInactive "evt-1" [baseStored] ∧
    googleDeleteEvent "tok" "evt-1" (.error (.badRequest "boom"))
        [baseStored] =
      googleDeleteEvent "tok" "evt-1" (.ok ()) [baseStored] ∧
    msDeleteEvent "tok" "evt-1" (.error (.badRequest "boom"))
        [baseStored] =
      msDeleteEvent "tok" "evt-1" (.ok ()) [baseStored] ∧
    (googleDeleteEvent "tok" "evt-1" (.error (.badRequest "boom"))
        [baseStored]).providerCalls =
      ["DELETE calendars/primary/events/" ++ "evt-1"] ∧
    (msDeleteEvent "tok" "evt-1" (.error (.badRequest "boom"))
        [baseStored]).providerCalls = ["DELETE me/events/" ++ "evt-1"] ∧
    ((∃ r ∈ [baseStored], r.externalId = "evt-1") →
      ∃ r' ∈ (googleDeleteEvent "tok" "evt-1" (.error (.badRequest "boom"))
          [baseStored]).db,
        r'.externalId = "evt-1" ∧ r'.isActive = false) :=
  C7_delete_provider_failure_nonfatal "tok" "evt-1" (.badRequest "boom")
    [baseStored] (by decide)

/-- C6: `logMeeting` rejects — before any persistence, with zero
logged-meeting records saved — whenever the organization id is empty,
or the meeting is virtual without a virtual-provider tag, or a
follow-up task is requested without its details. -/
theorem C6_logMeeting_validates_before_persistence
    (d : LogMeetingDto) (orgId savedId : String)
    (aId tId : Option String)
    (h : orgId = "" ∨
      (d.meetingType = .virtual ∧ ¬ jsTruthy d.virtualMeetingProvider) ∨
      (d.createFollowUpTask.getD false = true ∧ d.followUpTask = none)) :
    (∃ m, (logMeeting d orgId savedId aId tId).result =
        .error (.badRequest m)) ∧
    (logMeeting d orgId savedId aId tId).saves = 0 := by
  unfold logMeeting
  rcases h with h | ⟨h1, h2⟩ | ⟨h1, h2⟩
  · rw [if_pos h]
    exact ⟨⟨_, rfl⟩, rfl⟩
  · by_cases h0 : orgId = ""
    · rw [if_pos h0]
      exact ⟨⟨_, rfl⟩, rfl⟩
    · rw [if_neg h0, if_pos ⟨h1, h2⟩]
      exact ⟨⟨_, rfl⟩, rfl⟩
  · by_cases h0 : orgId = ""
    · rw [if_pos h0]
      exact ⟨⟨_, rfl⟩, rfl⟩
    · by_cases hv : d.meetingType = .virtual ∧ ¬ jsTruthy d.virtualMeetingProvider
      · rw [if_neg h0, if_pos hv]
        exact ⟨⟨_, rfl⟩, rfl⟩
      · rw [if_neg h0, if_neg hv, if_pos ⟨h1, by simp [h2]⟩]
        exact ⟨⟨_, rfl⟩, rfl⟩

/-- C6 witness: empty organization id with an otherwise-valid
request — rejected, zero saves. -/
theorem C6_witness :
    (∃ m, (logMeeting baseLogDto "" "m1" none none).result =
        .error (.badRequest m)) ∧
    (logMeeting baseLogDto "" "m1" none none).saves = 0 :=
  C6_logMeeting_validates_before_persistence baseLogDto "" "m1" none none
    (Or.inl rfl)

/-- C9: in the Microsoft adapter, any location kind other than
in-person and Teams yields a provider payload marked as an online
meeting with provider `teamsForBusiness` — identical to the Teams
kind — for both `createEvent` and `updateEvent` (when a kind is
supplied); only the in-person kind suppresses conferencing (create:
free-text location, no online flags; update: online flag cleared). -/
theorem C9_ms_nonTeams_defaults_to_teams
    (d : CreateEventDto) (u : UpdateEventDto) (lt : MeetingLocationType)
    (hd1 : d.locationType ≠ .inPerson) (hd2 : d.locationType ≠ .teams)
    (hu : u.locationType = some lt) (hu1 : lt ≠ .inPerson)
    (hu2 : lt ≠ .teams) :
    ((msCreateGraphPayload d).isOnlineMeeting = some true ∧
      (msCreateGraphPayload d).onlineMeetingProvider =
        some "teamsForBusiness" ∧
      msCreateGraphPayload d =
        msCreateGraphPayload { d with locationType := .teams }) ∧
    (msUpdatePayloadOnline u = ⟨some true, some "teamsForBusiness"⟩ ∧
      msUpdatePayloadOnline u =
        msUpdatePayloadOnline { u with locationType := some .teams }) ∧
    (∀ d' : CreateEventDto, d'.locationType = .inPerson →
      (msCreateGraphPayload d').isOnlineMeeting = none ∧
      (msCreateGraphPayload d').onlineMeetingProvider = none ∧
      (msCreateGraphPayload d').location =
        some (jsOr d'.locationDetails "In Person Meeting")) ∧
    (∀ u' : UpdateEventDto, u'.locationType = some .inPerson →
      msUpdatePayloadOnline u' = ⟨some false, none⟩) := by
  refine ⟨?_, ?_, ?_, ?_⟩
  · cases hlt : d.locationType with
    | inPerson => exact absurd hlt hd1
    | teams => exact absurd hlt hd2
    | googleMeet => exact ⟨by simp [msCreateGraphPayload, hlt],
        by simp [msCreateGraphPayload, hlt],
        by simp [msCreateGraphPayload, hlt]⟩
    | other => exact ⟨by simp [msCreateGraphPayload, hlt],
        by simp [msCreateGraphPayload, hlt],
        by simp [msCreateGraphPayload, hlt]⟩
  · cases lt with
    | inPerson => exact absurd rfl hu1
    | teams => exact absurd rfl hu2
    | googleMeet => exact ⟨by simp [msUpdatePayloadOnline, hu],
        by simp [msUpdatePayloadOnline, hu]⟩
    | other => exact ⟨by simp [msUpdatePayloadOnline, hu],
        by simp [msUpdatePayloadOnline, hu]⟩
  · intro d' hd'
    refine ⟨?_, ?_, ?_⟩ <;> simp [msCreateGraphPayload, hd']
  · intro u' hu'
    simp [msUpdatePayloadOnline, hu']

/-- C9 witness: a Google-Meet location kind in the Microsoft adapter
behaves exactly like Teams. -/
theorem C9_witness :
    ((msCreateGraphPayload
        { baseCreate with locationType := .googleMeet }).isOnlineMeeting =
        some true ∧
      (msCreateGraphPayload
        { baseCreate with
            locationType := .googleMeet }).onlineMeetingProvider =
        some "teamsForBusiness" ∧
      msCreateGraphPayload { baseCreate with locationType := .googleMeet } =
        msCreateGraphPayload
          { { baseCreate with locationType := .googleMeet } with
              locationType := .teams }) ∧
    (msUpdatePayloadOnline
        { noUpdate with locationType := some .googleMeet } =
        ⟨some true, some "teamsForBusiness"⟩ ∧
      msUpdatePayloadOnline
          { noUpdate with locationType := some .googleMeet } =
        msUpdatePayloadOnline
          { { noUpdate with locationType := some .googleMeet } with
              locationType := some .teams }) ∧
    (∀ d' : CreateEventDto, d'.locationType = .inPerson →
      (msCreateGraphPayload d').isOnlineMeeting = none ∧
      (msCreateGraphPayload d').onlineMeetingProvider = none ∧
      (msCreateGraphPayload d').location =
        some (jsOr d'.locationDetails "In Person Meeting")) ∧
    (∀ u' : UpdateEventDto, u'.locationType = some .inPerson →
      msUpdatePayloadOnline u' = ⟨some false, none⟩) :=
  C9_ms_nonTeams_defaults_to_teams
    { baseCreate with locationType := .googleMeet }
    { noUpdate with locationType := some .googleMeet } .googleMeet
    (by decide) (by decide) rfl (by decide) (by decide)

lemma insertIfAbsent_pos {α : Type} (k : String) (v : α)
    (m : List (String × α)) (h : (m.any fun p => p.1 == k) = true) :
    insertIfAbsent k v m = m := by
  unfold insertIfAbsent
  rw [if_pos h]

lemma insertIfAbsent_neg {α : Type} (k : String) (v : α)
    (m : List (String × α)) (h : ¬ (m.any fun p => p.1 == k) = true) :
    insertIfAbsent k v m = m ++ [(k, v)] := by
  unfold insertIfAbsent
  rw [if_neg h]

lemma any_key_iff {α : Type} (m : List (String × α)) (k : String) :
    (m.any fun p => p.1 == k) = true ↔ k ∈ m.map Prod.fst := by
  simp only [List.any_eq_true, beq_iff_eq, List.mem_map]

lemma gvalues_filter_nil (k : String) (m : List (String × GContact))
    (hA : ∀ p ∈ m, lowerStr p.2.email = p.1)
    (hk : k ∉ m.map Prod.fst) :
    (m.map Prod.snd).filter (fun c => lowerStr c.email == k) = [] := by
  induction m with
  | nil => rfl
  | cons p m' ih =>
    have hp := hA p (List.mem_cons_self _ _)
    have hk1 : p.1 ≠ k := fun h => hk (by simp [h])
    have hf : ¬ (lowerStr p.2.email == k) = true := by
      rw [hp]
      simp [hk1]
    rw [List.map_cons, List.filter_cons, if_neg hf]
    exact ih (fun q hq => hA q (List.mem_cons_of_mem _ hq))
      (fun h => hk (List.mem_cons_of_mem _ h))

lemma gvalues_filter_ne_nil (k : String) (m : List (String × GContact))
    (hA : ∀ p ∈ m, lowerStr p.2.email = p.1)
    (hk : k ∈ m.map Prod.fst) :
    (m.map Prod.snd).filter (fun c => lowerStr c.email == k) ≠ [] := by
  obtain ⟨p, hp, hpk⟩ := List.mem_map.mp hk
  intro hnil
  have hmem : p.2 ∈
      (m.map Prod.snd).filter (fun c => lowerStr c.email == k) :=
    List.mem_filter.mpr
      ⟨List.mem_map_of_mem _ hp, by simp [hA p hp, hpk]⟩
  rw [hnil] at hmem
  exact absurd hmem (List.not_mem_nil _)

lemma gvalues_filter_len_le_one (k : String) (m : List (String × GContact))
    (hA : ∀ p ∈ m, lowerStr p.2.email = p.1)
    (hB : (m.map Prod.fst).Nodup) :
    ((m.map Prod.snd).filter (fun c => lowerStr c.email == k)).length
      ≤ 1 := by
  induction m with
  | nil => simp
  | cons p m' ih =>
    have hA' : ∀ q ∈ m', lowerStr q.2.email = q.1 :=
      fun q hq => hA q (List.mem_cons_of_mem _ hq)
    have hB' : (m'.map Prod.fst).Nodup := (List.nodup_cons.mp hB).2
    rw [List.map_cons, List.filter_cons]
    by_cases hpk : (lowerStr p.2.email == k) = true
    · rw [if_pos hpk]
      have hk : p.1 = k := by
        have h1 := hA p (List.mem_cons_self _ _)
        rw [← h1]
        exact beq_iff_eq.mp hpk
      have hknot : k ∉ m'.map Prod.fst := hk ▸ (List.nodup_cons.mp hB).1
      rw [gvalues_filter_nil k m' hA' hknot]
      simp
    · rw [if_neg hpk]
      exact ih hA' hB'

lemma take_one_append_left {α : Type} (a x : List α) (ha : a ≠ []) :
    (a ++ x).take 1 = a.take 1 := by
  cases a with
  | nil => exact absurd rfl ha
  | cons y ys => simp

lemma google_dedup_aux (k : String) (cs : List GContact) :
    ∀ (m : List (String × GContact)),
      (∀ p ∈ m, lowerStr p.2.email = p.1) →
      (m.map Prod.fst).Nodup →
      ((cs.foldl (fun acc c => insertIfAbsent (lowerStr c.email) c acc)
          m).map Prod.snd).filter (fun c => lowerStr c.email == k) =
        ((m.map Prod.snd).filter (fun c => lowerStr c.email == k) ++
          cs.filter (fun c => lowerStr c.email == k)).take 1 := by
  induction cs with
  | nil =>
    intro m hA hB
    simp only [List.foldl_nil, List.filter_nil, List.append_nil]
    exact (List.take_of_length_le (gvalues_filter_len_le_one k m hA hB)).symm
  | cons c cs' ih =>
    intro m hA hB
    simp only [List.foldl_cons]
    by_cases hmem : (m.any fun p => p.1 == lowerStr c.email) = true
    · rw [insertIfAbsent_pos _ _ _ hmem, ih m hA hB]
      by_cases hfc : (lowerStr c.email == k) = true
      · have hkm : k ∈ m.map Prod.fst := by
          have h1 := (any_key_iff m (lowerStr c.email)).mp hmem
          rwa [beq_iff_eq.mp hfc] at h1
        have hne := gvalues_filter_ne_nil k m hA hkm
        rw [List.filter_cons, if_pos hfc, take_one_append_left _ _ hne,
          take_one_append_left _ _ hne]
      · rw [List.filter_cons, if_neg hfc]
    · rw [insertIfAbsent_neg _ _ _ hmem]
      have hknot : lowerStr c.email ∉ m.map Prod.fst := by
        intro h
        exact hmem ((any_key_iff m (lowerStr c.email)).mpr h)
      have hA' : ∀ p ∈ m ++ [(lowerStr c.email, c)],
          lowerStr p.2.email = p.1 := by
        intro p hp
        rcases List.mem_append.mp hp with hp | hp
        · exact hA p hp
        · rw [List.mem_singleton.mp hp]
      have hB' : ((m ++ [(lowerStr c.email, c)]).map Prod.fst).Nodup := by
        rw [List.map_append]
        simp only [List.map_cons, List.map_nil]
        rw [List.nodup_append]
        exact ⟨hB, List.nodup_singleton _,
          fun a ha hb => hknot ((List.mem_singleton.mp hb) ▸ ha)⟩
      rw [ih _ hA' hB', List.map_append, List.filter_append]
      simp only [List.map_cons, List.map_nil]
      rw [List.filter_cons, List.filter_nil]
      rw [List.filter_cons]
      by_cases hfc : (lowerStr c.email == k) = true
      · rw [if_pos hfc, if_pos hfc, List.append_assoc]
        rfl
      · rw [if_neg hfc, if_neg hfc, List.append_nil]

lemma ms_inner_mem_mono (c : MContact) (p : String × MContact)
    (es : List String) :
    ∀ m, p ∈ m →
      p ∈ es.foldl (fun m' e => insertIfAbsent (lowerStr e) c m') m := by
  induction es with
  | nil => intro m h; simpa using h
  | cons e es' ih =>
    intro m h
    rw [List.foldl_cons]
    apply ih
    by_cases hc : (m.any fun q => q.1 == lowerStr e) = true
    · rw [insertIfAbsent_pos _ _ _ hc]; exact h
    · rw [insertIfAbsent_neg _ _ _ hc]; exact List.mem_append_left _ h

lemma ms_inner_mem_src (c : MContact) (p : String × MContact)
    (es : List String) :
    ∀ m,
      p ∈ es.foldl (fun m' e => insertIfAbsent (lowerStr e) c m') m →
      p ∈ m ∨ (p.2 = c ∧ ∃ e ∈ es, p.1 = lowerStr e) := by
  induction es with
  | nil => intro m h; exact Or.inl (by simpa using h)
  | cons e es' ih =>
    intro m h
    rw [List.foldl_cons] at h
    rcases ih _ h with h1 | ⟨h2, e', he', hk⟩
    · by_cases hc : (m.any fun q => q.1 == lowerStr e) = true
      · rw [insertIfAbsent_pos _ _ _ hc] at h1
        exact Or.inl h1
      · rw [insertIfAbsent_neg _ _ _ hc] at h1
        rcases List.mem_append.mp h1 with h1 | h1
        · exact Or.inl h1
        · have hpe := List.mem_singleton.mp h1
          refine Or.inr ⟨by rw [hpe], e, List.mem_cons_self _ _, by rw [hpe]⟩
    · exact Or.inr ⟨h2, e', List.mem_cons_of_mem _ he', hk⟩

lemma msFold_cons (c : MContact) (cs : List MContact)
    (m : List (String × MContact)) :
    msFold (c :: cs) m = msFold cs (msInsertEmails c m) := rfl

lemma msFold_append (a b : List MContact) (m : List (String × MContact)) :
    msFold (a ++ b) m = msFold b (msFold a m) :=
  List.foldl_append _ _ _ _

lemma msFold_mem_mono (p : String × MContact) (cs : List MContact) :
    ∀ m, p ∈ m → p ∈ msFold cs m := by
  induction cs with
  | nil => intro m h; simpa [msFold] using h
  | cons c cs' ih =>
    intro m h
    rw [msFold_cons]
    exact ih _ (ms_inner_mem_mono c p c.emailAddresses m h)

lemma msFold_mem_src (p : String × MContact) (cs : List MContact) :
    ∀ m, p ∈ msFold cs m →
      p ∈ m ∨ ∃ c ∈ cs, p.2 = c ∧
        ∃ e ∈ c.emailAddresses, p.1 = lowerStr e := by
  induction cs with
  | nil => intro m h; exact Or.inl (by simpa [msFold] using h)
  | cons c cs' ih =>
    intro m h
    rw [msFold_cons] at h
    rcases ih _ h with h1 | ⟨c', hc', h2⟩
    · rcases ms_inner_mem_src c p c.emailAddresses m h1 with h1 | ⟨h2, he⟩
      · exact Or.inl h1
      · exact Or.inr ⟨c, List.mem_cons_self _ _, h2, he⟩
    · exact Or.inr ⟨c', List.mem_cons_of_mem _ hc', h2⟩

lemma ms_key_present_ins (k : String) (v : MContact)
    (m : List (String × MContact)) :
    k ∈ (insertIfAbsent k v m).map Prod.fst := by
  by_cases hc : (m.any fun q => q.1 == k) = true
  · rw [insertIfAbsent_pos _ _ _ hc]
    exact (any_key_iff m k).mp hc
  · rw [insertIfAbsent_neg _ _ _ hc, List.map_append]
    exact List.mem_append_right _ (by simp)

lemma ms_keys_mono_inner (c : MContact) (es : List String) (k' : String) :
    ∀ (m : List (String × MContact)), k' ∈ m.map Prod.fst →
      k' ∈ ((es.foldl (fun m' e => insertIfAbsent (lowerStr e) c m')
        m).map Prod.fst) := by
  intro m h
  obtain ⟨p, hp, hpk⟩ := List.mem_map.mp h
  exact hpk ▸ List.mem_map_of_mem _ (ms_inner_mem_mono c p es m hp)

lemma msFold_keys_mono (cs : List MContact) (k' : String) :
    ∀ (m : List (String × MContact)), k' ∈ m.map Prod.fst →
      k' ∈ (msFold cs m).map Prod.fst := by
  intro m h
  obtain ⟨p, hp, hpk⟩ := List.mem_map.mp h
  exact hpk ▸ List.mem_map_of_mem _ (msFold_mem_mono p cs m hp)

lemma ms_inner_keys_present (c : MContact) (es : List String) (e : String) :
    ∀ (m : List (String × MContact)), e ∈ es →
      lowerStr e ∈ ((es.foldl (fun m' e => insertIfAbsent (lowerStr e) c m')
        m).map Prod.fst) := by
  induction es with
  | nil => intro m h; simp at h
  | cons e₀ es' ih =>
    intro m h
    rw [List.foldl_cons]
    rcases List.mem_cons.mp h with rfl | h
    · exact ms_keys_mono_inner c es' _ _ (ms_key_present_ins (lowerStr e) c m)
    · exact ih _ h

lemma ms_inner_noop (c : MContact) (es : List String) :
    ∀ (m : List (String × MContact)),
      (∀ e ∈ es, lowerStr e ∈ m.map Prod.fst) →
      es.foldl (fun m' e => insertIfAbsent (lowerStr e) c m') m = m := by
  induction es with
  | nil => intro m _; rfl
  | cons e es' ih =>
    intro m h
    rw [List.foldl_cons,
      insertIfAbsent_pos _ _ _
        ((any_key_iff _ _).mpr (h e (List.mem_cons_self _ _)))]
    exact ih m (fun e' he' => h e' (List.mem_cons_of_mem _ he'))

lemma ms_dedup_pair (l₁ l₂ l₃ : List MContact) (c₁ c₂ : MContact)
    (hKeq : c₂.emailAddresses.map lowerStr =
      c₁.emailAddresses.map lowerStr)
    (hne : c₂ ≠ c₁)
    (hnonempty : c₁.emailAddresses ≠ [])
    (hothers : ∀ c, c ∈ l₁ ++ l₂ ++ l₃ → ∀ e ∈ c.emailAddresses,
      lowerStr e ∉ c₁.emailAddresses.map lowerStr) :
    c₁ ∈ msRemoveDuplicateContacts (l₁ ++ c₁ :: l₂ ++ c₂ :: l₃) ∧
    c₂ ∉ msRemoveDuplicateContacts (l₁ ++ c₁ :: l₂ ++ c₂ :: l₃) := by
  unfold msRemoveDuplicateContacts
  rw [msFold_append, msFold_cons, msFold_append, msFold_cons]
  have hKmem : ∀ e ∈ c₂.emailAddresses,
      lowerStr e ∈ c₁.emailAddresses.map lowerStr := by
    intro e he
    rw [← hKeq]
    exact List.mem_map_of_mem _ he
  have hc2ne : c₂.emailAddresses ≠ [] := by
    intro h
    apply hnonempty
    rw [h] at hKeq
    exact List.map_eq_nil_iff.mp hKeq.symm
  have hsides : ∀ c, c ∈ l₁ ++ l₂ ++ l₃ → c ≠ c₂ := by
    intro c hc hceq
    cases hE2 : c₂.emailAddresses with
    | nil => exact hc2ne hE2
    | cons f₀ fs =>
      have hf : f₀ ∈ c₂.emailAddresses := by
        rw [hE2]
        exact List.mem_cons_self _ _
      exact hothers c hc f₀ (by rw [hceq]; exact hf) (hKmem f₀ hf)
  have hM₁keys : ∀ k', k' ∈ (msFold l₁ []).map Prod.fst →
      k' ∉ c₁.emailAddresses.map lowerStr := by
    intro k' hk' hkK
    obtain ⟨p, hp, hpk⟩ := List.mem_map.mp hk'
    rcases msFold_mem_src p l₁ [] hp with h | ⟨c, hc, _, e, he, hke⟩
    · simp at h
    · have heq : lowerStr e = k' := by rw [← hke, hpk]
      exact hothers c (List.mem_append_left _ (List.mem_append_left _ hc))
        e he (heq ▸ hkK)
  have hKinM₂ : ∀ kk ∈ c₁.emailAddresses.map lowerStr,
      kk ∈ (msInsertEmails c₁ (msFold l₁ [])).map Prod.fst := by
    intro kk hkk
    obtain ⟨e, he, rfl⟩ := List.mem_map.mp hkk
    exact ms_inner_keys_present c₁ c₁.emailAddresses e _ he
  have hM₄eq : msInsertEmails c₂
      (msFold l₂ (msInsertEmails c₁ (msFold l₁ []))) =
      msFold l₂ (msInsertEmails c₁ (msFold l₁ [])) := by
    apply ms_inner_noop c₂ c₂.emailAddresses
    intro e he
    exact msFold_keys_mono l₂ _ _ (hKinM₂ _ (hKmem e he))
  constructor
  · cases hE : c₁.emailAddresses with
    | nil => exact absurd hE hnonempty
    | cons e₀ es₀ =>
      have hk₀notM₁ :
          ¬ ((msFold l₁ []).any fun q => q.1 == lowerStr e₀) = true := by
        intro h
        exact hM₁keys _ ((any_key_iff _ _).mp h)
          (by rw [hE]; exact List.mem_map_of_mem _ (List.mem_cons_self _ _))
      have hpair : (lowerStr e₀, c₁) ∈ msInsertEmails c₁ (msFold l₁ []) := by
        unfold msInsertEmails
        rw [hE, List.foldl_cons, insertIfAbsent_neg _ _ _ hk₀notM₁]
        exact ms_inner_mem_mono c₁ _ es₀ _
          (List.mem_append_right _ (by simp))
      have hfinalpair : (lowerStr e₀, c₁) ∈ msFold l₃
          (msInsertEmails c₂
            (msFold l₂ (msInsertEmails c₁ (msFold l₁ [])))) := by
        apply msFold_mem_mono
        rw [hM₄eq]
        exact msFold_mem_mono _ l₂ _ hpair
      exact List.mem_map_of_mem _ hfinalpair
  · intro hc₂mem
    obtain ⟨p, hp, hps⟩ := List.mem_map.mp hc₂mem
    rcases msFold_mem_src p l₃ _ hp with hpM₄ | ⟨c, hc, hpc, _⟩
    · rw [hM₄eq] at hpM₄
      rcases msFold_mem_src p l₂ _ hpM₄ with hpM₂ | ⟨c, hc, hpc, _⟩
      · rcases ms_inner_mem_src c₁ p c₁.emailAddresses _ hpM₂ with
          hpM₁ | ⟨hpc₁, _⟩
        · rcases msFold_mem_src p l₁ [] hpM₁ with hnil | ⟨c, hc, hpc, _⟩
          · simp at hnil
          · exact hsides c
              (List.mem_append_left _ (List.mem_append_left _ hc))
              (by rw [← hpc, hps])
        · exact hne (by rw [← hps, hpc₁])
      · exact hsides c
          (List.mem_append_left _ (List.mem_append_right _ hc))
          (by rw [← hpc, hps])
    · exact hsides c (List.mem_append_right _ hc) (by rw [← hpc, hps])

/-- C8: contact de-duplication keys on the lowercased email in both
adapters.  Google: for every lowercased-email key, the entries of the
output with that key are exactly the first input entry with that key
(so of any two entries whose emails differ only in case, exactly one
survives and it is the first encountered).  Microsoft: for two
distinct entries whose email lists agree up to letter case, no other
entry sharing any of those keys, the first-encountered entry survives
and the later one is dropped. -/
theorem C8_dedup_lowercase_email_first_survives
    (gcs : List GContact) (k : String)
    (l₁ l₂ l₃ : List MContact) (c₁ c₂ : MContact)
    (hKeq : c₂.emailAddresses.map lowerStr =
      c₁.emailAddresses.map lowerStr)
    (hne : c₂ ≠ c₁)
    (hnonempty : c₁.emailAddresses ≠ [])
    (hothers : ∀ c, c ∈ l₁ ++ l₂ ++ l₃ → ∀ e ∈ c.emailAddresses,
      lowerStr e ∉ c₁.emailAddresses.map lowerStr) :
    (googleRemoveDuplicateContacts gcs).filter
        (fun c => lowerStr c.email == k) =
      (gcs.filter (fun c => lowerStr c.email == k)).take 1 ∧
    c₁ ∈ msRemoveDuplicateContacts (l₁ ++ c₁ :: l₂ ++ c₂ :: l₃) ∧
    c₂ ∉ msRemoveDuplicateContacts (l₁ ++ c₁ :: l₂ ++ c₂ :: l₃) := by
  refine ⟨?_, (ms_dedup_pair l₁ l₂ l₃ c₁ c₂ hKeq hne hnonempty hothers).1,
    (ms_dedup_pair l₁ l₂ l₃ c₁ c₂ hKeq hne hnonempty hothers).2⟩
  have h := google_dedup_aux k gcs [] (by simp) (by simp)
  simpa [googleRemoveDuplicateContacts] using h

/-- C8 witness: two Google contacts `A@x.com` / `a@X.com` (first one
survives), and two Microsoft contacts with the same pair of
case-variant addresses (first survives, second dropped). -/
theorem C8_witness :
    (googleRemoveDuplicateContacts
        [⟨"g1", "Ann", "A@x.com", "", "", ""⟩,
          ⟨"g2", "Ann2", "a@X.com", "", "", ""⟩]).filter
        (fun c => lowerStr c.email == "a@x.com") =
      (([⟨"g1", "Ann", "A@x.com", "", "", ""⟩,
          ⟨"g2", "Ann2", "a@X.com", "", "", ""⟩] :
            List GContact).filter
        (fun c => lowerStr c.email == "a@x.com")).take 1 ∧
    (⟨"m1", some "Bea", ["B@y.com"]⟩ : MContact) ∈
      msRemoveDuplicateContacts
        ([] ++ ⟨"m1", some "Bea", ["B@y.com"]⟩ ::
          [] ++ ⟨"m2", some "Bea2", ["b@Y.com"]⟩ :: []) ∧
    (⟨"m2", some "Bea2", ["b@Y.com"]⟩ : MContact) ∉
      msRemoveDuplicateContacts
        ([] ++ ⟨"m1", some "Bea", ["B@y.com"]⟩ ::
          [] ++ ⟨"m2", some "Bea2", ["b@Y.com"]⟩ :: []) :=
  C8_dedup_lowercase_email_first_survives
    [⟨"g1", "Ann", "A@x.com", "", "", ""⟩,
      ⟨"g2", "Ann2", "a@X.com", "", "", ""⟩] "a@x.com"
    [] [] [] ⟨"m1", some "Bea", ["B@y.com"]⟩ ⟨"m2", some "Bea2", ["b@Y.com"]⟩
    (by decide) (by decide) (by decide) (by simp)

end Crm
